import Mathlib

/-!
# NiftyWatch screener — shallow embedding and verification

A shallow embedding of `src/screener.py` (the stock screener of the
NiftyWatch repository) over exact rationals, together with theorems
settling the frozen claims about it.

Modelling conventions:
* pandas `NaN` cells are modelled as `none : Option ℚ`; a defined cell is
  `some q`.  Comparisons against `NaN` are `False` in pandas, which the
  `nanLt`/`nanGt` helpers mirror.
* `yfinance`/network effects are abstracted into a `fetch` argument:
  `fetch_stock_bundle` either raises (`FetchResult.err`) or returns the
  fundamentals dictionary (with possibly absent `trailingPE` /
  `returnOnEquity`) and the price history.
* `time.sleep`, chart rendering (`matplotlib`) and Excel export are pure
  no-ops with respect to the returned tables; the `plotTickers` argument is
  kept for interface fidelity but cannot influence the result rows.
-/

namespace NiftyWatch

/-- One bar of the price history returned by `stock.history(period="6mo")`.
Only the columns the screener reads (`Close`, `Volume`) are modelled. -/
structure PricePoint where
  close : ℚ
  volume : ℚ
  deriving DecidableEq, Repr

/-- The two fields `run_screener` reads from `stock.info`; `info.get`
returns `None` for an absent key, modelled by `Option`. -/
structure Fundamentals where
  trailingPE : Option ℚ
  returnOnEquity : Option ℚ
  deriving DecidableEq, Repr

/-- Outcome of `fetch_stock_bundle(ticker)`: the call may raise (caught by
the `except` clause of `run_screener`) or return `(info, hist)`. -/
inductive FetchResult where
  | err : FetchResult
  | ok (info : Fundamentals) (hist : List PricePoint) : FetchResult
  deriving DecidableEq, Repr

/-- `series.diff()` at index `t`: `NaN` at index 0, otherwise
`series[t] - series[t-1]`.  (Only indices `t < series.length` are ever
read; `getD` supplies a junk default outside that range.) -/
def deltaAt (c : List ℚ) (t : ℕ) : Option ℚ :=
  if t = 0 then none else some (c.getD t 0 - c.getD (t - 1) 0)

/-- `delta.where(delta > 0, 0)` at index `t`.  Note that pandas replaces
the index-0 `NaN` delta by `0` here (since `NaN > 0` is `False`), so the
gain series is total. -/
def gainAt (c : List ℚ) (t : ℕ) : ℚ :=
  match deltaAt c t with
  | none => 0
  | some d => max d 0

/-- `-delta.where(delta < 0, 0)` at index `t`; total for the same reason
as `gainAt`. -/
def lossAt (c : List ℚ) (t : ℕ) : ℚ :=
  match deltaAt c t with
  | none => 0
  | some d => max (-d) 0

/-- `f.rolling(window=w).mean()` at index `t` for a total series `f` (the
default `min_periods` equals the window, so the first `w - 1` entries are
`NaN`): the unweighted mean of `f (t-w+1), …, f t`. -/
def rollMeanAt (w : ℕ) (f : ℕ → ℚ) (t : ℕ) : Option ℚ :=
  if t + 1 < w then none
  else some ((∑ i in Finset.range w, f (t - i)) / (w : ℚ))

/-- `calculate_rsi(series, window=14)` at index `t`:
`rs = gain/loss; rsi = 100 - 100/(1+rs)` with IEEE semantics made
explicit — `NaN` while either rolling mean is `NaN`, `NaN` for `0/0`
(`rs = NaN`), and `100` when `loss = 0 < gain` (`rs = +∞`, so
`100/(1+rs) = 0`). -/
def rsiAt (c : List ℚ) (t : ℕ) : Option ℚ :=
  match rollMeanAt 14 (gainAt c) t, rollMeanAt 14 (lossAt c) t with
  | some g, some l =>
      if l = 0 then (if g = 0 then none else some 100)
      else some (100 - 100 / (1 + g / l))
  | _, _ => none

/-- `data['Close'].rolling(20).mean()` at index `t`. -/
def sma20At (c : List ℚ) (t : ℕ) : Option ℚ :=
  rollMeanAt 20 (fun i => c.getD i 0) t

/-- `data['Volume'] > 1.5 * data['Volume'].rolling(20).mean()` at index
`t`; a comparison against `NaN` is `False`. -/
def volumeSpikeAt (v : List ℚ) (t : ℕ) : Bool :=
  match rollMeanAt 20 (fun i => v.getD i 0) t with
  | none => false
  | some m => decide (3 / 2 * m < v.getD t 0)

/-- pandas/NumPy `x < y` where either operand may be `NaN`: `False` unless
both are defined and the strict inequality holds. -/
def nanLt : Option ℚ → Option ℚ → Bool
  | some x, some y => decide (x < y)
  | _, _ => false

/-- pandas/NumPy `x > y` with `NaN` semantics. -/
def nanGt : Option ℚ → Option ℚ → Bool
  | some x, some y => decide (y < x)
  | _, _ => false

/-- The signal block of `run_screener`:
`signal = "Hold"; if RSI < 30 and Close > SMA20: "Buy";
elif RSI > 70 and Close < SMA20: "Sell"` evaluated on the latest bar. -/
def signalOf (rsi : Option ℚ) (close : ℚ) (sma : Option ℚ) : String :=
  if nanLt rsi (some 30) && nanGt (some close) sma then "Buy"
  else if nanGt rsi (some 70) && nanLt (some close) sma then "Sell"
  else "Hold"

/-- Python `round(q)` (round half to even) on an exact rational. -/
def roundHalfEven (q : ℚ) : ℤ :=
  if q - ⌊q⌋ < 1 / 2 then ⌊q⌋
  else if 1 / 2 < q - ⌊q⌋ then ⌊q⌋ + 1
  else if ⌊q⌋ % 2 = 0 then ⌊q⌋ else ⌊q⌋ + 1

/-- Python `round(q, 2)`. -/
def round2 (q : ℚ) : ℚ :=
  (roundHalfEven (q * 100) : ℚ) / 100

/-- One row of `summary_data`.  `volumeSpikeToday` carries the literal
`"Yes"`/`"No"` string the source stores. -/
structure ScreenRow where
  ticker : String
  peRatio : ℚ
  roePercent : ℚ
  rsi : Option ℚ
  volumeSpikeToday : String
  signal : String
  deriving DecidableEq, Repr

/-- The body of `run_screener`'s per-ticker `try` block: `none` when the
ticker is skipped (`continue`) — fetch raised, `trailingPE` or
`returnOnEquity` absent, or empty history — and `some row` when a row is
appended to `summary_data`.  The chart branch and `time.sleep` do not
touch the row. -/
def processTicker (fetch : String → FetchResult) (tk : String) : Option ScreenRow :=
  match fetch tk with
  | .err => none
  | .ok info hist =>
    match info.trailingPE, info.returnOnEquity with
    | some pe, some roe =>
      if hist.isEmpty then none
      else
        let closes := hist.map (·.close)
        let vols := hist.map (·.volume)
        let n := hist.length - 1
        let rsi := rsiAt closes n
        let sma := sma20At closes n
        some { ticker := tk
               peRatio := round2 pe
               roePercent := round2 (roe * 100)
               rsi := rsi.map round2
               volumeSpikeToday := if volumeSpikeAt vols n then "Yes" else "No"
               signal := signalOf rsi (closes.getD n 0) sma }
    | _, _ => none

/-- Spec-side (claim C3): trailing 14-bar simple moving average of
`max(delta, 0)` where `delta i = close[i] − close[i−1]`, written directly
from the claim's words for comparison with the source's `rsiAt`. -/
def avgGainSpec (c : List ℚ) (t : ℕ) : ℚ :=
  (∑ i in Finset.range 14, max (c.getD (t - i) 0 - c.getD (t - i - 1) 0) 0) / 14

/-- Spec-side (claim C3): trailing 14-bar simple moving average of
`max(−delta, 0)`. -/
def avgLossSpec (c : List ℚ) (t : ℕ) : ℚ :=
  (∑ i in Finset.range 14, max (c.getD (t - i - 1) 0 - c.getD (t - i) 0) 0) / 14

/-- Spec-side (claim C3): `RSI = 100 − 100/(1 + avgGain/avgLoss)` with the
claimed edge cases (`100` when `avgLoss = 0 < avgGain`, undefined when
both vanish). -/
def rsiSpec (c : List ℚ) (t : ℕ) : Option ℚ :=
  if avgLossSpec c t = 0 then (if avgGainSpec c t = 0 then none else some 100)
  else some (100 - 100 / (1 + avgGainSpec c t / avgLossSpec c t))

/-- The row-level filter building `filtered_df`:
`PE Ratio <= max_pe_filter  AND  ROE (%) >= min_roe_filter`. -/
def rowPasses (maxPE minROE : ℚ) (r : ScreenRow) : Bool :=
  decide (r.peRatio ≤ maxPE) && decide (minROE ≤ r.roePercent)

/-- `run_screener(selected_tickers, plot_tickers, max_pe_filter,
min_roe_filter)` returning `(result_df, filtered_df)` as lists of rows in
input-ticker order.  When `summary_data` is empty the empty frame is
returned twice before any filtering.  (`plotTickers` only triggers chart
file output in the source and cannot affect the tables.) -/
def run_screener (tickers : List String) (plotTickers : List String)
    (fetch : String → FetchResult) (maxPE minROE : ℚ) :
    List ScreenRow × List ScreenRow :=
  let _ := plotTickers
  let full := tickers.filterMap (processTicker fetch)
  if full.isEmpty then (full, full)
  else (full, full.filter (rowPasses maxPE minROE))

/-! ### Concrete sample inputs used by counterexamples and witnesses -/

/-- A provider returning sound fundamentals (`trailingPE = 10`,
`returnOnEquity = 0.2`) and a one-bar price history for every ticker. -/
def oneBarFetch : String → FetchResult :=
  fun _ => .ok ⟨some 10, some (1 / 5)⟩ [⟨100, 1000⟩]

/-- A provider whose every call raises (transport failure). -/
def errFetch : String → FetchResult := fun _ => .err

/-- A provider extensionally equal to `oneBarFetch` on the ticker `"A"`
but written differently. -/
def oneBarFetchIf : String → FetchResult :=
  fun tk => if tk = "A" then .ok ⟨some 10, some (1 / 5)⟩ [⟨100, 1000⟩] else .err

/-- 14 strictly increasing closes. -/
def c14 : List ℚ := [1, 2, 3, 4, 5, 6, 7, 8, 9, 10, 11, 12, 13, 14]

/-- 21 strictly increasing closes. -/
def c21 : List ℚ :=
  [1, 2, 3, 4, 5, 6, 7, 8, 9, 10, 11, 12, 13, 14, 15, 16, 17, 18, 19, 20, 21]

/-- 14 constant closes (every delta is zero). -/
def cConst : List ℚ := List.replicate 14 5

/-- 19 flat-volume bars followed by one twentyfold volume bar. -/
def vSpike : List ℚ := List.replicate 19 1 ++ [20]

/-! ### Helper lemmas -/

/-- `nanLt` is `true` exactly when both cells are defined and strictly
ordered. -/
theorem nanLt_eq_true_iff {a b : Option ℚ} :
    nanLt a b = true ↔ ∃ x y, a = some x ∧ b = some y ∧ x < y := by
  cases a <;> cases b <;> simp [nanLt]

/-- `nanGt` is `true` exactly when both cells are defined and strictly
ordered the other way. -/
theorem nanGt_eq_true_iff {a b : Option ℚ} :
    nanGt a b = true ↔ ∃ x y, a = some x ∧ b = some y ∧ y < x := by
  cases a <;> cases b <;> simp [nanGt]

/-- The Buy condition of the signal block, as a proposition. -/
theorem buy_cond_iff (rsi sma : Option ℚ) (close : ℚ) :
    (nanLt rsi (some 30) && nanGt (some close) sma) = true ↔
      (∃ r, rsi = some r ∧ r < 30) ∧ ∃ s, sma = some s ∧ s < close := by
  cases rsi <;> cases sma <;> simp [nanLt, nanGt]

/-- The Sell condition of the signal block, as a proposition. -/
theorem sell_cond_iff (rsi sma : Option ℚ) (close : ℚ) :
    (nanGt rsi (some 70) && nanLt (some close) sma) = true ↔
      (∃ r, rsi = some r ∧ 70 < r) ∧ ∃ s, sma = some s ∧ close < s := by
  cases rsi <;> cases sma <;> simp [nanLt, nanGt]

/-- With an undefined SMA20 the signal is always `Hold` (every pandas
comparison against `NaN` is `False`). -/
theorem signal_hold_of_sma_none (rsi : Option ℚ) (close : ℚ) :
    signalOf rsi close none = "Hold" := by
  cases rsi <;> simp [signalOf, nanLt, nanGt]

/-- A rolling mean with an incomplete window is `NaN`. -/
theorem rollMeanAt_eq_none {w t : ℕ} (h : t + 1 < w) (f : ℕ → ℚ) :
    rollMeanAt w f t = none := by
  simp [rollMeanAt, h]

/-- SMA20 is `NaN` on the first 19 bars. -/
theorem sma20_short {c : List ℚ} {t : ℕ} (h : t + 1 < 20) :
    sma20At c t = none :=
  rollMeanAt_eq_none h _

/-- The volume-spike flag is `False` on the first 19 bars. -/
theorem volumeSpike_short {v : List ℚ} {t : ℕ} (h : t + 1 < 20) :
    volumeSpikeAt v t = false := by
  simp [volumeSpikeAt, rollMeanAt_eq_none h]

/-- A rolling mean of a nonnegative series is nonnegative. -/
theorem rollMeanAt_nonneg {w t : ℕ} {f : ℕ → ℚ} {m : ℚ}
    (hf : ∀ i, 0 ≤ f i) (h : rollMeanAt w f t = some m) : 0 ≤ m := by
  unfold rollMeanAt at h
  by_cases hw : t + 1 < w
  · simp [hw] at h
  · rw [if_neg hw] at h
    obtain rfl :
        (∑ i in Finset.range w, f (t - i)) / (w : ℚ) = m := by
      exact Option.some.inj h
    exact div_nonneg (Finset.sum_nonneg fun i _ => hf _) (by positivity)

/-- The gain column is (pointwise) nonnegative. -/
theorem gainAt_nonneg (c : List ℚ) (t : ℕ) : 0 ≤ gainAt c t := by
  unfold gainAt
  cases deltaAt c t with
  | none => exact le_refl 0
  | some d => exact le_max_right d 0

/-- The loss column is (pointwise) nonnegative. -/
theorem lossAt_nonneg (c : List ℚ) (t : ℕ) : 0 ≤ lossAt c t := by
  unfold lossAt
  cases deltaAt c t with
  | none => exact le_refl 0
  | some d => exact le_max_right (-d) 0

/-- `processTicker` on a successful fetch with both fundamentals present
and a non-empty history: the concrete appended row. -/
theorem processTicker_ok (fetch : String → FetchResult) (tk : String)
    (info : Fundamentals) (hist : List PricePoint) (pe roe : ℚ)
    (hfe : fetch tk = .ok info hist) (hpe : info.trailingPE = some pe)
    (hroe : info.returnOnEquity = some roe) (hne : hist ≠ []) :
    processTicker fetch tk = some
      { ticker := tk
        peRatio := round2 pe
        roePercent := round2 (roe * 100)
        rsi := (rsiAt (hist.map (·.close)) (hist.length - 1)).map round2
        volumeSpikeToday :=
          if volumeSpikeAt (hist.map (·.volume)) (hist.length - 1) then "Yes" else "No"
        signal := signalOf (rsiAt (hist.map (·.close)) (hist.length - 1))
            ((hist.map (·.close)).getD (hist.length - 1) 0)
            (sma20At (hist.map (·.close)) (hist.length - 1)) } := by
  unfold processTicker
  rw [hfe]
  dsimp only
  rw [hpe, hroe]
  simp [hne]

/-- The filtered table is always the row-filter of the full table (also
when the full table is empty). -/
theorem run_screener_snd (tickers plots : List String)
    (fetch : String → FetchResult) (maxPE minROE : ℚ) :
    (run_screener tickers plots fetch maxPE minROE).2
      = (run_screener tickers plots fetch maxPE minROE).1.filter
          (rowPasses maxPE minROE) := by
  unfold run_screener
  by_cases h : (tickers.filterMap (processTicker fetch)).isEmpty
  · rw [List.isEmpty_iff] at h
    simp [h]
  · simp [h]

/-- The full table is the `filterMap` of per-ticker processing over the
input tickers, in order. -/
theorem run_screener_fst (tickers plots : List String)
    (fetch : String → FetchResult) (maxPE minROE : ℚ) :
    (run_screener tickers plots fetch maxPE minROE).1
      = tickers.filterMap (processTicker fetch) := by
  unfold run_screener
  by_cases h : (tickers.filterMap (processTicker fetch)).isEmpty <;> simp [h]

/-! ### Claims -/

/-- Claim C1, counterexample.  The claim says a ticker whose price series
is shorter than 20 bars contributes no row to `fullTable`.  The source has
no such skip: with present fundamentals and a non-empty one-bar history
(`oneBarFetch`, series length `1 < 20`, hence undefined RSI and SMA20),
`run_screener` still appends a row for the ticker, so `fullTable` is not
empty. -/
theorem C1_counterexample :
    ([⟨100, 1000⟩] : List PricePoint).length < 20 ∧
    (run_screener ["A"] [] oneBarFetch 30 15).1 =
      [{ ticker := "A", peRatio := 10, roePercent := 20, rsi := none,
         volumeSpikeToday := "No", signal := "Hold" }] := by
  constructor
  · norm_num
  · norm_num [run_screener, processTicker, oneBarFetch, rsiAt, sma20At,
      rollMeanAt, volumeSpikeAt, signalOf, nanLt, nanGt, round2,
      roundHalfEven, List.filterMap]

/-- Claim C1, amended.  A ticker whose fetched series is shorter than 20
bars is *not* excluded: if its fundamentals are present and the series is
non-empty, it contributes exactly one row to `fullTable`, and (because the
latest SMA20 is undefined, so both comparison conditions are `False`) that
row's signal is `Hold`. -/
theorem C1_short_series_row_emitted (fetch : String → FetchResult)
    (tk : String) (info : Fundamentals) (hist : List PricePoint)
    (pe roe : ℚ) (plots : List String) (maxPE minROE : ℚ)
    (hfe : fetch tk = .ok info hist) (hpe : info.trailingPE = some pe)
    (hroe : info.returnOnEquity = some roe) (hne : hist ≠ [])
    (hlen : hist.length < 20) :
    ∃ row, processTicker fetch tk = some row ∧ row.signal = "Hold" ∧
      (run_screener [tk] plots fetch maxPE minROE).1 = [row] := by
  have hrow := processTicker_ok fetch tk info hist pe roe hfe hpe hroe hne
  have hlen0 : hist.length ≠ 0 := by
    simpa [List.length_eq_zero] using hne
  have hsma : sma20At (hist.map (·.close)) (hist.length - 1) = none :=
    sma20_short (by omega)
  refine ⟨_, hrow, ?_, ?_⟩
  · show signalOf _ _ _ = "Hold"
    rw [hsma]
    exact signal_hold_of_sma_none _ _
  · rw [run_screener_fst]
    simp [List.filterMap_cons, hrow]

/-- Claim C1 witness: the amended theorem applied to the concrete one-bar
provider. -/
theorem C1_short_series_row_emitted_witness :
    ∃ row, processTicker oneBarFetch "A" = some row ∧ row.signal = "Hold" ∧
      (run_screener ["A"] [] oneBarFetch 30 15).1 = [row] :=
  C1_short_series_row_emitted oneBarFetch "A" ⟨some 10, some (1 / 5)⟩
    [⟨100, 1000⟩] 10 (1 / 5) [] 30 15 rfl rfl rfl (by simp) (by norm_num)

/-- Claim C2.  The emitted signal is `Buy` exactly when the latest RSI is
defined and `< 30` and the latest SMA20 is defined and below the close;
`Sell` exactly when RSI is defined and `> 70` and SMA20 defined and above
the close; and `Hold` in every other case — in particular whenever RSI or
SMA20 is undefined (`none`).  `signalOf` is a total function, so
classification never raises. -/
theorem C2_signal_classification (rsi sma : Option ℚ) (close : ℚ) :
    (signalOf rsi close sma = "Buy" ↔
      (∃ r, rsi = some r ∧ r < 30) ∧ ∃ s, sma = some s ∧ s < close) ∧
    (signalOf rsi close sma = "Sell" ↔
      (∃ r, rsi = some r ∧ 70 < r) ∧ ∃ s, sma = some s ∧ close < s) ∧
    (signalOf rsi close sma = "Hold" ↔
      ¬(((∃ r, rsi = some r ∧ r < 30) ∧ (∃ s, sma = some s ∧ s < close)) ∨
        ((∃ r, rsi = some r ∧ 70 < r) ∧ ∃ s, sma = some s ∧ close < s))) := by
  have hbuy := buy_cond_iff rsi sma close
  have hsell := sell_cond_iff rsi sma close
  unfold signalOf
  split_ifs with h1 h2
  · have hc1 := hbuy.mp h1
    have hnc2 : ¬((∃ r, rsi = some r ∧ 70 < r) ∧ ∃ s, sma = some s ∧ close < s) := by
      rintro ⟨⟨r', hr', h70⟩, ⟨s', hs', hcs⟩⟩
      obtain ⟨⟨r, hr, h30⟩, ⟨s, hs, hsc⟩⟩ := hc1
      rw [hr] at hr'
      rw [hs] at hs'
      obtain rfl : r = r' := Option.some.inj hr'
      obtain rfl : s = s' := Option.some.inj hs'
      linarith
    exact ⟨iff_of_true rfl hc1, iff_of_false (by simp) hnc2,
      iff_of_false (by simp) (not_not_intro (Or.inl hc1))⟩
  · have hc2 := hsell.mp h2
    have hnc1 : ¬((∃ r, rsi = some r ∧ r < 30) ∧ ∃ s, sma = some s ∧ s < close) :=
      fun hc1 => h1 (hbuy.mpr hc1)
    exact ⟨iff_of_false (by simp) hnc1, iff_of_true rfl hc2,
      iff_of_false (by simp) (not_not_intro (Or.inr hc2))⟩
  · have hnc1 : ¬((∃ r, rsi = some r ∧ r < 30) ∧ ∃ s, sma = some s ∧ s < close) :=
      fun hc1 => h1 (hbuy.mpr hc1)
    have hnc2 : ¬((∃ r, rsi = some r ∧ 70 < r) ∧ ∃ s, sma = some s ∧ close < s) :=
      fun hc2 => h2 (hsell.mpr hc2)
    exact ⟨iff_of_false (by simp) hnc1, iff_of_false (by simp) hnc2,
      iff_of_true rfl (not_or.mpr ⟨hnc1, hnc2⟩)⟩

/-- Claim C3, counterexample.  The claim says bars with fewer than 14
preceding deltas have undefined RSI.  On a 14-bar series the last bar
(index 13) has only 13 preceding deltas, yet the source's RSI is defined
there (here `100`): `delta.where(delta > 0, 0)` replaces the first `NaN`
delta by `0`, so the 14-wide rolling mean is already complete at index
13. -/
theorem C3_counterexample : c14.length = 14 ∧ rsiAt c14 13 = some 100 := by
  constructor
  · rfl
  · norm_num [rsiAt, rollMeanAt, gainAt, lossAt, deltaAt, c14,
      Finset.sum_range_succ]

/-- Claim C3, amended.  For every bar with at least **14** preceding
deltas (index `t ≥ 14`) the computed RSI equals exactly the claimed
formula `100 − 100/(1 + avgGain/avgLoss)` over the trailing 14-bar simple
moving averages of `max(delta, 0)` and `max(−delta, 0)`, with RSI `= 100`
when `avgLoss = 0 < avgGain` and undefined when both averages vanish; and
RSI is undefined on the first **13** bars (index `t < 13`) — not the first
14 as claimed, since at index 13 the replaced first delta completes the
window. -/
theorem C3_rsi_formula (c : List ℚ) (t : ℕ) :
    (14 ≤ t → rsiAt c t = rsiSpec c t) ∧ (t + 1 < 14 → rsiAt c t = none) := by
  constructor
  · intro ht
    have hg : rollMeanAt 14 (gainAt c) t = some (avgGainSpec c t) := by
      unfold rollMeanAt avgGainSpec
      rw [if_neg (by omega)]
      have hsum : ∑ i in Finset.range 14, gainAt c (t - i)
          = ∑ i in Finset.range 14,
              max (c.getD (t - i) 0 - c.getD (t - i - 1) 0) 0 := by
        refine Finset.sum_congr rfl ?_
        intro i hi
        rw [Finset.mem_range] at hi
        have hti : ¬(t - i = 0) := by omega
        simp [gainAt, deltaAt, hti]
      rw [hsum]
      norm_num
    have hl : rollMeanAt 14 (lossAt c) t = some (avgLossSpec c t) := by
      unfold rollMeanAt avgLossSpec
      rw [if_neg (by omega)]
      have hsum : ∑ i in Finset.range 14, lossAt c (t - i)
          = ∑ i in Finset.range 14,
              max (c.getD (t - i - 1) 0 - c.getD (t - i) 0) 0 := by
        refine Finset.sum_congr rfl ?_
        intro i hi
        rw [Finset.mem_range] at hi
        have hti : ¬(t - i = 0) := by omega
        simp [lossAt, deltaAt, hti, neg_sub]
      rw [hsum]
      norm_num
    unfold rsiAt rsiSpec
    rw [hg, hl]
  · intro ht
    unfold rsiAt
    rw [rollMeanAt_eq_none ht, rollMeanAt_eq_none ht]

/-- Claim C3 witness: the amended theorem applied at index 14 (formula
case) and index 0 (warm-up case) of the 21-bar rising series. -/
theorem C3_rsi_formula_witness :
    rsiAt c21 14 = rsiSpec c21 14 ∧ rsiAt c21 0 = none :=
  ⟨(C3_rsi_formula c21 14).1 (by norm_num),
   (C3_rsi_formula c21 0).2 (by norm_num)⟩

/-- Claim C4.  The filtered table is exactly the rows of the full table
with `peRatio ≤ maxPE` and `roePercent ≥ minROE`: it is the row-filter of
the full table, a sublist of it, each of its rows satisfies both
predicates, and an empty full table yields an empty filtered table (both
returned without error — `run_screener` is total). -/
theorem C4_filtered_table (tickers plots : List String)
    (fetch : String → FetchResult) (maxPE minROE : ℚ) :
    (run_screener tickers plots fetch maxPE minROE).2
      = (run_screener tickers plots fetch maxPE minROE).1.filter
          (rowPasses maxPE minROE) ∧
    ((run_screener tickers plots fetch maxPE minROE).2.Sublist
      (run_screener tickers plots fetch maxPE minROE).1) ∧
    (∀ r, r ∈ (run_screener tickers plots fetch maxPE minROE).2 ↔
      (r ∈ (run_screener tickers plots fetch maxPE minROE).1 ∧
        r.peRatio ≤ maxPE ∧ minROE ≤ r.roePercent)) ∧
    ((run_screener tickers plots fetch maxPE minROE).1 = [] →
      (run_screener tickers plots fetch maxPE minROE).2 = []) := by
  have hsnd := run_screener_snd tickers plots fetch maxPE minROE
  refine ⟨hsnd, ?_, ?_, ?_⟩
  · rw [hsnd]
    exact List.filter_sublist _
  · intro r
    rw [hsnd, List.mem_filter]
    simp [rowPasses, and_assoc]
  · intro h
    rw [hsnd, h]
    rfl

/-- Claim C4 witness: with an always-raising provider the full table is
empty and the filtered table is therefore empty as well. -/
theorem C4_filtered_table_witness :
    (run_screener ["A"] [] errFetch 30 15).2 = [] :=
  (C4_filtered_table ["A"] [] errFetch 30 15).2.2.2
    (by simp [run_screener_fst, List.filterMap, processTicker, errFetch])

/-- Claim C5.  A ticker whose fetch raises, whose `trailingPE` or
`returnOnEquity` is absent, or whose price history is empty contributes
no row (`processTicker` yields `none` — in particular absent fundamentals
exclude the ticker regardless of its price history), and a skipped ticker
leaves the result of the remaining batch unchanged: no per-ticker failure
aborts it. -/
theorem C5_per_ticker_failure (fetch : String → FetchResult) (tk : String) :
    (fetch tk = .err → processTicker fetch tk = none) ∧
    (∀ info hist, fetch tk = .ok info hist →
      (info.trailingPE = none ∨ info.returnOnEquity = none ∨ hist = []) →
      processTicker fetch tk = none) ∧
    (∀ rest plots maxPE minROE, processTicker fetch tk = none →
      run_screener (tk :: rest) plots fetch maxPE minROE
        = run_screener rest plots fetch maxPE minROE) := by
  refine ⟨?_, ?_, ?_⟩
  · intro h
    unfold processTicker
    rw [h]
  · intro info hist hfe habs
    obtain ⟨tpe, troe⟩ := info
    unfold processTicker
    rw [hfe]
    cases tpe with
    | none => rfl
    | some pe =>
      cases troe with
      | none => rfl
      | some roe =>
        rcases habs with h | h | h
        · simp at h
        · simp at h
        · simp [h]
  · intro rest plots maxPE minROE h
    unfold run_screener
    rw [List.filterMap_cons_none h]

/-- Claim C5 witness: the theorem applied to the always-raising provider;
the raising ticker contributes nothing and the batch result equals the
result without it. -/
theorem C5_per_ticker_failure_witness :
    processTicker errFetch "X" = none ∧
    run_screener ["X"] [] errFetch 30 15 = run_screener [] [] errFetch 30 15 :=
  ⟨(C5_per_ticker_failure errFetch "X").1 rfl,
   (C5_per_ticker_failure errFetch "X").2.2 [] [] 30 15
     ((C5_per_ticker_failure errFetch "X").1 rfl)⟩

/-- Claim C6, counterexample.  The claim says RSI is NaN/undefined
whenever the rolling 14-bar loss is zero.  On the 21-bar strictly rising
series the rolling loss at the last bar is `0`, yet the source's RSI is
defined there and equals `100` (`gain/loss = +∞`, `100 − 100/(1+∞) =
100`); RSI is undefined only in the `0/0` case. -/
theorem C6_counterexample :
    rollMeanAt 14 (lossAt c21) 20 = some 0 ∧ rsiAt c21 20 = some 100 := by
  constructor
  · norm_num [rollMeanAt, lossAt, deltaAt, c21, Finset.sum_range_succ]
  · norm_num [rsiAt, rollMeanAt, gainAt, lossAt, deltaAt, c21,
      Finset.sum_range_succ]

/-- Claim C6, amended.  Whenever RSI is defined its value lies in
`[0, 100]`; and RSI is undefined in the zero-loss case only when the
rolling gain is *also* zero (`0/0`) — when the rolling loss is zero and
the rolling gain is positive, RSI is defined and the bound still holds
(it equals 100). -/
theorem C6_rsi_bounds (c : List ℚ) (t : ℕ) :
    (∀ x, rsiAt c t = some x → 0 ≤ x ∧ x ≤ 100) ∧
    (rollMeanAt 14 (gainAt c) t = some 0 →
      rollMeanAt 14 (lossAt c) t = some 0 → rsiAt c t = none) := by
  constructor
  · intro x hx
    unfold rsiAt at hx
    rcases hG : rollMeanAt 14 (gainAt c) t with _ | g
    · rw [hG] at hx
      cases hx
    rcases hL : rollMeanAt 14 (lossAt c) t with _ | l
    · rw [hG, hL] at hx
      cases hx
    rw [hG, hL] at hx
    have hg0 : 0 ≤ g := rollMeanAt_nonneg (gainAt_nonneg c) hG
    have hl0 : 0 ≤ l := rollMeanAt_nonneg (lossAt_nonneg c) hL
    dsimp only at hx
    split_ifs at hx with hl hg
    · obtain rfl : (100 : ℚ) = x := Option.some.inj hx
      norm_num
    · obtain rfl : 100 - 100 / (1 + g / l) = x := Option.some.inj hx
      have hlpos : 0 < l := lt_of_le_of_ne hl0 (Ne.symm hl)
      have hgl : 0 ≤ g / l := div_nonneg hg0 (le_of_lt hlpos)
      have h1 : (1 : ℚ) ≤ 1 + g / l := by linarith
      have hdivpos : 0 < 100 / (1 + g / l) := by positivity
      have hdivle : 100 / (1 + g / l) ≤ 100 := div_le_self (by norm_num) h1
      constructor <;> linarith
  · intro hg hl
    unfold rsiAt
    rw [hg, hl]
    simp

/-- Claim C6 witness: the bound at the concrete value `100` of the last
bar of the rising series, and the genuine `0/0` undefined case on a
constant series. -/
theorem C6_rsi_bounds_witness :
    ((0 : ℚ) ≤ 100 ∧ (100 : ℚ) ≤ 100) ∧ rsiAt cConst 13 = none :=
  ⟨(C6_rsi_bounds c21 20).1 100
      (by norm_num [rsiAt, rollMeanAt, gainAt, lossAt, deltaAt, c21,
        Finset.sum_range_succ]),
   (C6_rsi_bounds cConst 13).2
      (by norm_num [rollMeanAt, gainAt, deltaAt, cConst,
        Finset.sum_range_succ, List.replicate])
      (by norm_num [rollMeanAt, lossAt, deltaAt, cConst,
        Finset.sum_range_succ, List.replicate])⟩

/-- Claim C7.  For every bar with at least 19 preceding bars the
volume-spike flag is `true` exactly when the bar's volume exceeds `1.5×`
the trailing 20-bar simple moving average of volume, the window including
the current bar's own volume (the `i = 0` summand). -/
theorem C7_volume_spike (v : List ℚ) (t : ℕ) (h : 19 ≤ t) :
    volumeSpikeAt v t = true ↔
      3 / 2 * ((∑ i in Finset.range 20, v.getD (t - i) 0) / 20) < v.getD t 0 := by
  unfold volumeSpikeAt rollMeanAt
  rw [if_neg (by omega)]
  simp only [decide_eq_true_eq]
  norm_num

/-- Claim C7 witness: the flag at bar 19 of `vSpike` (19 flat bars of
volume 1, then volume 20: mean 39/20, threshold 117/40 < 20). -/
theorem C7_volume_spike_witness : volumeSpikeAt vSpike 19 = true :=
  (C7_volume_spike vSpike 19 (by norm_num)).mpr
    (by norm_num [vSpike, Finset.sum_range_succ, List.getD_append,
      List.getD_append_right, List.replicate])

/-- Claim C8, counterexample.  The claim says invalid filter bounds (for
example a negative PE threshold) are rejected by validation before any
ticker is screened.  `run_screener` contains no validation: called with
`maxPE = −1` it still screens the ticker (the full table has its row) and
simply applies the bound per-row in the final filter (empty filtered
table). -/
theorem C8_counterexample :
    (run_screener ["A"] [] oneBarFetch (-1) 15).1.length = 1 ∧
    (run_screener ["A"] [] oneBarFetch (-1) 15).2 = [] := by
  constructor <;>
    norm_num [run_screener, processTicker, oneBarFetch, rsiAt, sma20At,
      rollMeanAt, volumeSpikeAt, signalOf, nanLt, nanGt, round2,
      roundHalfEven, List.filterMap, rowPasses, List.filter]

/-- Claim C8, amended.  The filter bounds are not validated anywhere:
which tickers are screened (the full table) is entirely independent of
the bounds — any values, including a negative PE threshold, are accepted
— and the bounds act only per-row in the final filtering step. -/
theorem C8_no_bound_validation (tickers plots : List String)
    (fetch : String → FetchResult) (maxPE maxPE' minROE minROE' : ℚ) :
    (run_screener tickers plots fetch maxPE minROE).1
      = (run_screener tickers plots fetch maxPE' minROE').1 ∧
    (run_screener tickers plots fetch maxPE minROE).2
      = (run_screener tickers plots fetch maxPE minROE).1.filter
          (rowPasses maxPE minROE) :=
  ⟨by rw [run_screener_fst, run_screener_fst],
   run_screener_snd tickers plots fetch maxPE minROE⟩

/-- Claim C9.  The screening pass is deterministic: two runs on the same
ticker list, plot set and filter bounds, against providers that agree on
every ticker of the list (unchanged upstream data), return identical
full and filtered tables.  Re-running is idempotent. -/
theorem C9_deterministic (tickers plots : List String)
    (f g : String → FetchResult) (maxPE minROE : ℚ)
    (h : ∀ tk ∈ tickers, f tk = g tk) :
    run_screener tickers plots f maxPE minROE
      = run_screener tickers plots g maxPE minROE := by
  have hfm : tickers.filterMap (processTicker f)
      = tickers.filterMap (processTicker g) := by
    induction tickers with
    | nil => rfl
    | cons tk rest ih =>
      have htk : processTicker f tk = processTicker g tk := by
        unfold processTicker
        rw [h tk (List.mem_cons_self tk rest)]
      rw [List.filterMap_cons, List.filterMap_cons, htk,
        ih fun t ht => h t (List.mem_cons_of_mem tk ht)]
  unfold run_screener
  rw [hfm]

/-- Claim C9 witness: the two extensionally equal providers `oneBarFetch`
and `oneBarFetchIf` yield identical results on the ticker list `["A"]`. -/
theorem C9_deterministic_witness :
    run_screener ["A"] [] oneBarFetch 30 15
      = run_screener ["A"] [] oneBarFetchIf 30 15 :=
  C9_deterministic ["A"] [] oneBarFetch oneBarFetchIf 30 15
    (fun tk htk => by
      rw [List.mem_singleton] at htk
      subst htk
      rfl)

/-- Claim C10.  On every bar whose trailing 20-bar volume average is
undefined (fewer than 20 bars of history) the volume-spike flag is
`false` — not `NaN` and not an error — and therefore every row emitted
for a shorter-than-20-bar series reports the field as the literal string
`"No"`. -/
theorem C10_short_series_spike_no :
    (∀ (v : List ℚ) (t : ℕ), t + 1 < 20 → volumeSpikeAt v t = false) ∧
    (∀ (fetch : String → FetchResult) (tk : String) (info : Fundamentals)
        (hist : List PricePoint) (pe roe : ℚ) (row : ScreenRow),
      fetch tk = .ok info hist → info.trailingPE = some pe →
      info.returnOnEquity = some roe → hist ≠ [] → hist.length < 20 →
      processTicker fetch tk = some row → row.volumeSpikeToday = "No") := by
  constructor
  · intro v t ht
    exact volumeSpike_short ht
  · intro fetch tk info hist pe roe row hfe hpe hroe hne hlen hrow
    rw [processTicker_ok fetch tk info hist pe roe hfe hpe hroe hne] at hrow
    have hlen0 : hist.length ≠ 0 := by
      simpa [List.length_eq_zero] using hne
    have hspike : volumeSpikeAt (hist.map (·.volume)) (hist.length - 1) = false :=
      volumeSpike_short (by omega)
    obtain rfl := Option.some.inj hrow
    simp [hspike]

/-- Claim C10 witness: the flag on bar 5 of the spike series, and the
`"No"` field of the row emitted for the one-bar provider. -/
theorem C10_short_series_spike_no_witness :
    volumeSpikeAt vSpike 5 = false ∧
    ({ ticker := "A", peRatio := 10, roePercent := 20, rsi := none,
       volumeSpikeToday := "No", signal := "Hold" } : ScreenRow).volumeSpikeToday
      = "No" :=
  ⟨C10_short_series_spike_no.1 vSpike 5 (by norm_num),
   C10_short_series_spike_no.2 oneBarFetch "A" ⟨some 10, some (1 / 5)⟩
     [⟨100, 1000⟩] 10 (1 / 5) _ rfl rfl rfl (by simp) (by norm_num)
     (by norm_num [processTicker, oneBarFetch, rsiAt, sma20At, rollMeanAt,
       volumeSpikeAt, signalOf, nanLt, nanGt, round2, roundHalfEven])⟩

end NiftyWatch
